import Mathlib

/-!
# Verification of the NextionControl display-link controller

Shallow embedding of `src/NextionControl.cpp`, `src/NextionControl.h` and
`src/BaseDisplayPage.h`.

Modelling conventions:
* A `BaseDisplayPage` object is reduced to the data the controller reads or
  writes: its page id (returned by `getPageId()`, a `uint8_t`) and its two
  flags `_initialized` and `_isActive` (both set by the controller through the
  friend declaration).  Virtual hooks (`onEnterPage`, `begin`, `handleTouch`,
  ...) have application-defined bodies the controller never inspects, so an
  invocation is recorded as an `Event` in an output trace instead.
* The pointer `currentPage` is modelled as an `Option Nat` index into the
  registry list (the constructor stores the pages in an array; distinct
  registry slots hold distinct objects, so pointer equality is index
  equality).
* Flag assignments performed by the controller (`_isActive = false`,
  `_isActive = true`, `_initialized = true`) are both applied to the state and
  recorded in the trace, so that theorems can speak about the *order* of
  hook calls and flag mutations.
* Bytes are `Nat`s (the hardware type `uint8_t` keeps them below 256).
  Machine time (`unsigned long`, 32 bits on the target) is a `Nat`; the
  unsigned subtraction `now - t` used for the timeout comparisons is modelled
  by `elapsed`, explicit modular arithmetic at width 32.
* `millis()` called inside `readSerial` is identified with the `now` argument
  of the enclosing call: the poll is assumed not to straddle a tick, which is
  the granularity of the model.
* Writes to the serial transport are modelled as events (`Event.sendme` for
  the `sendme` resynchronization probe) or, for the `BaseDisplayPage` helper
  methods, as the list of bytes written.
-/

namespace Nextion

/-- One registered display page: its Nextion page id plus the two flags the
controller maintains through the friend declaration (`_initialized`,
`_isActive`).  Fresh pages are constructed with both flags `false`
(see the `BaseDisplayPage` constructor). -/
structure Page where
  pageId : Nat
  inited : Bool
  isActive : Bool
deriving Repr, DecidableEq

instance : Inhabited Page := ⟨⟨0, false, false⟩⟩

/-- Observable actions of the controller: lifecycle-hook invocations, flag
assignments on pages, event deliveries to the current page, and the
`sendme` resynchronization probe written to the transport. -/
inductive Event where
  | onLeavePage (pageId : Nat)
  | activeCleared (pageId : Nat)
  | activeSet (pageId : Nat)
  | onEnterPage (pageId : Nat)
  | beginPage (pageId : Nat)
  | markInited (pageId : Nat)
  | handleTouch (pageId compId eventType : Nat)
  | handleTouchXY (pageId x y eventType : Nat)
  | handleText (pageId : Nat) (text : List Nat)
  | handleNumeric (pageId value : Nat)
  | handleCommandResponse (pageId code : Nat)
  | handleErrorCommandResponse (pageId code : Nat)
  | handleSleepChange (pageId : Nat) (entering : Bool)
  | refreshPage (pageId now : Nat)
  | sendme
deriving Repr, DecidableEq

/-- The page-lifecycle part of the controller state: the registry (`pages`
array, order = registration order) and the `currentPage` pointer, modelled
as an index into the registry. -/
structure PageState where
  pages : List Page
  currentPage : Option Nat
deriving Repr, DecidableEq

/-- Replace the page at index `i` by `f` of it (out-of-range indices leave
the list unchanged); this is how the controller's writes through a page
pointer are reflected on the registry list. -/
def modifyPage : List Page → Nat → (Page → Page) → List Page
  | [], _, _ => []
  | p :: ps, 0, f => f p :: ps
  | p :: ps, n + 1, f => p :: modifyPage ps n f

/-- The linear registry scan of `switchToPageById`: index of the first page
whose `getPageId()` equals `pageId`. -/
def findPageIdx : List Page → Nat → Option Nat
  | [], _ => none
  | p :: ps, pid =>
      if p.pageId = pid then some 0
      else (findPageIdx ps pid).map (· + 1)

/-- The page a registry index refers to (out-of-range reads give the default
page; they do not occur in reachable states). -/
def getPageD (ps : List Page) (i : Nat) : Page := ps[i]?.getD default

/-- `currentPage->getPageId()` guarded by the null check: `none` when no
page is current. -/
def currentPageId (ps : PageState) : Option Nat :=
  ps.currentPage.map (fun i => (getPageD ps.pages i).pageId)

/-- `NextionControl::switchToPageById`: scan the registry for the id; not
found returns `false` with nothing changed; the already-current page is a
successful no-op; otherwise run the leave hook, clear the old active flag,
move `currentPage`, set the new active flag, run the enter hook, and—first
activation only—run the one-time `begin()` and mark the page initialized. -/
def switchToPageById (ps : PageState) (pageId : Nat) :
    Bool × PageState × List Event :=
  match findPageIdx ps.pages pageId with
  | none => (false, ps, [])
  | some newIdx =>
    if ps.currentPage = some newIdx then (true, ps, [])
    else
      let step1 : PageState × List Event :=
        match ps.currentPage with
        | some oldIdx =>
            ({ ps with pages :=
                 modifyPage ps.pages oldIdx (fun p => { p with isActive := false }) },
             [Event.onLeavePage ((getPageD ps.pages oldIdx).pageId),
              Event.activeCleared ((getPageD ps.pages oldIdx).pageId)])
        | none => (ps, [])
      let ps2 : PageState :=
        { step1.1 with
          currentPage := some newIdx,
          pages := modifyPage step1.1.pages newIdx (fun p => { p with isActive := true }) }
      let ev2 := step1.2 ++ [Event.activeSet pageId, Event.onEnterPage pageId]
      if (getPageD ps2.pages newIdx).inited then (true, ps2, ev2)
      else
        (true,
         { ps2 with pages :=
             modifyPage ps2.pages newIdx (fun p => { p with inited := true }) },
         ev2 ++ [Event.beginPage pageId, Event.markInited pageId])

/-- `if (currentPage) currentPage->handler(...)`: deliver events to the
current page when one exists. -/
def deliver (ps : PageState) (f : Nat → List Event) : List Event :=
  match currentPageId ps with
  | some pid => f pid
  | none => []

/-- `NextionControl::handleNextionMessage`: classify one framed payload by
its first byte and route it, mirroring the `switch` statement case by
case (success / error codes / touch 0x65 with defensive resync / page
change 0x66 / coordinates 0x67,0x68 / text 0x70 / numeric 0x71 /
sleep 0x86,0x87 / everything else ignored). -/
def handleNextionMessage (ps : PageState) (data : List Nat) :
    PageState × List Event :=
  match data with
  | [] => (ps, [])
  | cmd :: _ =>
    if cmd = 0x01 then
      (ps, deliver ps (fun pid => [Event.handleCommandResponse pid cmd]))
    else if cmd = 0x00 ∨ cmd = 0x02 ∨ cmd = 0x03 ∨ cmd = 0x04 ∨
            cmd = 0x1A ∨ cmd = 0x1B ∨ cmd = 0x1C then
      (ps, deliver ps (fun pid => [Event.handleErrorCommandResponse pid cmd]))
    else if cmd = 0x65 then
      if data.length < 4 then (ps, [])
      else
        let pageId := data.getD 1 0
        let compId := data.getD 2 0
        let eventType := data.getD 3 0
        let resync : PageState × List Event :=
          if currentPageId ps ≠ some pageId then
            let r := switchToPageById ps pageId
            (r.2.1, r.2.2)
          else (ps, [])
        let delivered :=
          if currentPageId resync.1 = some pageId then
            [Event.handleTouch pageId compId eventType]
          else []
        (resync.1, resync.2 ++ delivered)
    else if cmd = 0x66 then
      if data.length < 2 then (ps, [])
      else
        let r := switchToPageById ps (data.getD 1 0)
        (r.2.1, r.2.2)
    else if cmd = 0x67 ∨ cmd = 0x68 then
      if data.length < 6 then (ps, [])
      else
        let x := data.getD 1 0 * 256 + data.getD 2 0
        let y := data.getD 3 0 * 256 + data.getD 4 0
        (ps, deliver ps (fun pid => [Event.handleTouchXY pid x y (data.getD 5 0)]))
    else if cmd = 0x70 then
      (ps, deliver ps (fun pid => [Event.handleText pid data.tail]))
    else if cmd = 0x71 then
      if data.length < 5 then (ps, [])
      else
        let v := data.getD 1 0 + data.getD 2 0 * 256 +
                 data.getD 3 0 * 65536 + data.getD 4 0 * 16777216
        (ps, deliver ps (fun pid => [Event.handleNumeric pid v]))
    else if cmd = 0x86 ∨ cmd = 0x87 then
      (ps, deliver ps (fun pid => [Event.handleSleepChange pid (cmd = 0x86)]))
    else (ps, [])

/-- `const size_t SerialBufferSize = 256`. -/
def SerialBufferSize : Nat := 256

/-- `const unsigned long SerialTimeout = 800`. -/
def SerialTimeout : Nat := 800

/-- `const int RefreshTime = 1000`. -/
def RefreshTime : Nat := 1000

/-- Unsigned 32-bit subtraction `now - t` as used by the timeout and
refresh comparisons (`unsigned long` is 32 bits on the target). -/
def elapsed (now t : Nat) : Nat := (now + 2 ^ 32 - t % 2 ^ 32) % 2 ^ 32

/-- Full controller state: the lifecycle state plus the refresh timer and
the framer's assembly state (`_readingMessage`, `_lastCharTime`,
`_terminatorCount`, and the assembled prefix of `_serialBuffer`, whose
length is `_serialBufferPos`). -/
structure ControllerState where
  ps : PageState
  refreshTimer : Nat
  readingMessage : Bool
  lastCharTime : Nat
  terminatorCount : Nat
  serialBuffer : List Nat
deriving Repr, DecidableEq

/-- Result of one `readSerial`/`update` call: the new state, the trace of
hook invocations and transport writes, the framed payloads dispatched, and
the bytes left unread in the transport (nonempty only after a buffer
overflow, whose `break` exits the drain loop early). -/
structure ReadResult where
  state : ControllerState
  events : List Event
  frames : List (List Nat)
  leftover : List Nat
deriving Repr, DecidableEq

/-- The byte-drain loop of `NextionControl::readSerial`: per byte, stamp
`_lastCharTime`; while idle discard boundary bytes and start assembly on the
first payload byte; append to the buffer or—on overflow—discard the frame,
reset to idle and `break`; count consecutive `0xFF`s and, at three, dispatch
the buffer minus the terminators and reset to idle. -/
def readLoop (s : ControllerState) (bytes : List Nat) (now : Nat) : ReadResult :=
  match bytes with
  | [] => ⟨s, [], [], []⟩
  | b :: rest =>
    let s0 := { s with lastCharTime := now }
    if s0.readingMessage = false ∧ b = 0xFF then
      -- leading 0xFF while idle: terminator counter cleared, byte skipped
      readLoop { s0 with terminatorCount := 0 } rest now
    else
      let s1 :=
        if s0.readingMessage then s0
        else { s0 with terminatorCount := 0, readingMessage := true, serialBuffer := [] }
      if s1.serialBuffer.length < SerialBufferSize then
        let s2 := { s1 with serialBuffer := s1.serialBuffer ++ [b] }
        let s3 :=
          if b = 0xFF then { s2 with terminatorCount := s2.terminatorCount + 1 }
          else { s2 with terminatorCount := 0 }
        if 3 ≤ s3.terminatorCount then
          let msg := s3.serialBuffer.take (s3.serialBuffer.length - 3)
          let d := handleNextionMessage s3.ps msg
          let s4 := { s3 with ps := d.1, serialBuffer := [], terminatorCount := 0,
                              readingMessage := false }
          let r := readLoop s4 rest now
          ⟨r.state, d.2 ++ r.events, msg :: r.frames, r.leftover⟩
        else
          readLoop s3 rest now
      else
        -- framing overflow: discard the buffer, reset to idle, break
        ⟨{ s1 with readingMessage := false, serialBuffer := [], terminatorCount := 0 },
          [], [], rest⟩

/-- `NextionControl::readSerial`: drain the available bytes, then abandon a
stalled partial frame (reset all assembly state) and issue the `sendme`
resynchronization probe when the timeout has elapsed. -/
def readSerial (s : ControllerState) (bytes : List Nat) (now : Nat) : ReadResult :=
  let r := readLoop s bytes now
  if r.state.readingMessage = true ∧ SerialTimeout < elapsed now r.state.lastCharTime then
    ⟨{ r.state with readingMessage := false, terminatorCount := 0, serialBuffer := [] },
      r.events ++ [Event.sendme], r.frames, r.leftover⟩
  else r

/-- `NextionControl::update`: process serial input, then run the periodic
refresh of the current page when the refresh interval has elapsed. -/
def update (s : ControllerState) (bytes : List Nat) (now : Nat) : ReadResult :=
  let r := readSerial s bytes now
  if r.state.ps.currentPage.isSome ∧ RefreshTime < elapsed now r.state.refreshTimer then
    ⟨{ r.state with refreshTimer := now },
      r.events ++
        [Event.refreshPage ((currentPageId r.state.ps).getD 0) now],
      r.frames, r.leftover⟩
  else r

/-- `NextionControl::begin`: run the one-time `begin()` of the current page
if it has not run yet, mark it initialized, issue the `sendme` probe, and
return `true`. -/
def begin (s : ControllerState) : Bool × ControllerState × List Event :=
  match s.ps.currentPage with
  | some i =>
      if (getPageD s.ps.pages i).inited = false then
        let pages1 := modifyPage s.ps.pages i (fun p => { p with inited := true })
        (true,
         { s with ps := { s.ps with pages := pages1 } },
         [Event.beginPage ((getPageD s.ps.pages i).pageId),
          Event.markInited ((getPageD s.ps.pages i).pageId), Event.sendme])
      else (true, s, [Event.sendme])
  | none => (true, s, [Event.sendme])

/-- A page as the application constructs it (`BaseDisplayPage` constructor:
both flags `false`). -/
def freshPage (pid : Nat) : Page := { pageId := pid, inited := false, isActive := false }

/-- The `NextionControl` constructor: copy the registry, and for a non-empty
registry point `currentPage` at entry 0 and pre-mark it active.  The framer
fields whose C++ initial values are indeterminate are never read before
being written, so the model starts them at their first written values. -/
def mkController (ids : List Nat) : ControllerState :=
  { ps := { pages := modifyPage (ids.map freshPage) 0 (fun p => { p with isActive := true }),
            currentPage := if ids = [] then none else some 0 },
    refreshTimer := 0, readingMessage := false, lastCharTime := 0,
    terminatorCount := 0, serialBuffer := [] }

/-! ## Outbound command helpers of `BaseDisplayPage`

Each helper returns the list of bytes it writes to the transport (empty =
silent no-op).  The null checks on the transport pointer and on the C
string arguments of the source cannot fire in the model (both are always
present here), so they are omitted. -/

namespace BaseDisplayPage

/-- Bytes of an ASCII command string as they appear on the wire. -/
def strBytes (s : String) : List Nat := s.toList.map Char.toNat

/-- `BaseDisplayPage::endCommand`: the three-byte frame terminator. -/
def endCommand : List Nat := [0xFF, 0xFF, 0xFF]

/-- `BaseDisplayPage::sendCommand`: write the command and terminator only
while the page is active. -/
def sendCommand (p : Page) (cmd : String) : List Nat :=
  if p.isActive = false then [] else strBytes cmd ++ endCommand

/-- `BaseDisplayPage::setComponentProperty`: write
`component.property=value` only while the page is active. -/
def setComponentProperty (p : Page) (component property : String) (value : Int) : List Nat :=
  if p.isActive = false then []
  else strBytes (component ++ "." ++ property ++ "=" ++ toString value) ++ endCommand

/-- `BaseDisplayPage::sendValue`: write `component=value` only while the
page is active. -/
def sendValue (p : Page) (component : String) (value : Int) : List Nat :=
  if p.isActive = false then []
  else strBytes (component ++ "=" ++ toString value) ++ endCommand

/-- `BaseDisplayPage::sendText`: write `component.txt="text"` only while
the page is active. -/
def sendText (p : Page) (component text : String) : List Nat :=
  if p.isActive = false then []
  else strBytes (component ++ ".txt=\"" ++ text ++ "\"") ++ endCommand

/-- `BaseDisplayPage::setPage`: write `page pageId` — deliberately with no
check of the active flag ("Always allow page change commands regardless of
active state"). -/
def setPage (_p : Page) (pageId : Nat) : List Nat :=
  strBytes ("page " ++ toString pageId) ++ endCommand

end BaseDisplayPage

/-! ## Helper lemmas -/

theorem modifyPage_length (ps : List Page) (i : Nat) (f : Page → Page) :
    (modifyPage ps i f).length = ps.length := by
  induction ps generalizing i with
  | nil => rfl
  | cons p ps ih => cases i <;> simp [modifyPage, ih]

theorem getElem?_modifyPage (ps : List Page) (i j : Nat) (f : Page → Page) :
    (modifyPage ps i f)[j]? =
      if j = i then ps[j]?.map f else ps[j]? := by
  induction ps generalizing i j with
  | nil => simp [modifyPage]
  | cons p ps ih =>
    cases i with
    | zero => cases j <;> simp [modifyPage]
    | succ n =>
      cases j with
      | zero => simp [modifyPage]
      | succ m => simpa [modifyPage, Nat.succ_eq_add_one] using ih n m

theorem getPageD_modify_self (ps : List Page) (i : Nat) (f : Page → Page)
    (hi : i < ps.length) :
    getPageD (modifyPage ps i f) i = f (getPageD ps i) := by
  unfold getPageD
  rw [getElem?_modifyPage, if_pos rfl, List.getElem?_eq_getElem hi]
  rfl

theorem getPageD_modify_other (ps : List Page) {i j : Nat} (f : Page → Page)
    (h : j ≠ i) : getPageD (modifyPage ps i f) j = getPageD ps j := by
  unfold getPageD
  rw [getElem?_modifyPage, if_neg h]

theorem findPageIdx_none_of (ps : List Page) (pid : Nat)
    (h : ∀ p ∈ ps, p.pageId ≠ pid) : findPageIdx ps pid = none := by
  induction ps with
  | nil => rfl
  | cons p ps ih =>
    have hp : p.pageId ≠ pid := h p (List.mem_cons_self p ps)
    have ht : ∀ q ∈ ps, q.pageId ≠ pid := fun q hq => h q (List.mem_cons_of_mem p hq)
    simp [findPageIdx, hp, ih ht]

theorem findPageIdx_get (ps : List Page) (pid i : Nat)
    (h : findPageIdx ps pid = some i) :
    ∃ p, ps[i]? = some p ∧ p.pageId = pid := by
  induction ps generalizing i with
  | nil => simp [findPageIdx] at h
  | cons p ps ih =>
    by_cases hp : p.pageId = pid
    · simp [findPageIdx, hp] at h
      exact ⟨p, by simp [← h], hp⟩
    · simp [findPageIdx, hp] at h
      obtain ⟨j, hj, rfl⟩ := h
      obtain ⟨q, hq, hqid⟩ := ih j hj
      exact ⟨q, by simpa using hq, hqid⟩

theorem findPageIdx_lt (ps : List Page) (pid i : Nat)
    (h : findPageIdx ps pid = some i) : i < ps.length := by
  obtain ⟨p, hp, -⟩ := findPageIdx_get ps pid i h
  exact (List.getElem?_eq_some.mp hp).1

/-- A failed registry lookup leaves `switchToPageById` with nothing to do:
`false`, unchanged state, no hooks. -/
theorem switchToPageById_not_found (ps : PageState) (pid : Nat)
    (h : ∀ p ∈ ps.pages, p.pageId ≠ pid) :
    switchToPageById ps pid = (false, ps, []) := by
  unfold switchToPageById
  rw [findPageIdx_none_of ps.pages pid h]

/-! ## Claim theorems: lifecycle manager -/

/-- C10: `NextionControl::begin` reports success unconditionally — in every
controller state, with or without a current page and whether or not it was
already initialized, the returned flag is `true`. -/
theorem begin_always_returns_true (s : ControllerState) : (begin s).1 = true := by
  unfold begin
  cases s.ps.currentPage with
  | none => rfl
  | some i => by_cases h : (getPageD s.ps.pages i).inited = false <;> simp [h]

/-- C7: switching to a page id absent from the registry fails and is a
complete no-op: the result is `false`, the controller state (current page
and every page's flags) is unchanged, and no lifecycle hook runs. -/
theorem switch_unknown_id_no_op (ps : PageState) (pid : Nat)
    (h : ∀ p ∈ ps.pages, p.pageId ≠ pid) :
    switchToPageById ps pid = (false, ps, []) :=
  switchToPageById_not_found ps pid h

theorem switch_unknown_id_no_op_witness :
    switchToPageById { pages := [freshPage 1, freshPage 7], currentPage := some 0 } 5 =
      (false, { pages := [freshPage 1, freshPage 7], currentPage := some 0 }, []) :=
  switch_unknown_id_no_op { pages := [freshPage 1, freshPage 7], currentPage := some 0 } 5
    (by decide)

/-- C6: a `0x71` frame of length at least 5 delivers to the current page's
numeric handler the little-endian unsigned 32-bit integer formed from
payload bytes 1 through 4, and a shorter `0x71` frame is dropped silently
with no event. -/
theorem numeric_decode_little_endian (ps : PageState) (pid b1 b2 b3 b4 : Nat)
    (rest : List Nat) (hcur : currentPageId ps = some pid) :
    handleNextionMessage ps (0x71 :: b1 :: b2 :: b3 :: b4 :: rest) =
      (ps, [Event.handleNumeric pid
              (b1 + b2 * 256 + b3 * 65536 + b4 * 16777216)]) ∧
    ∀ t : List Nat, t.length < 4 → handleNextionMessage ps (0x71 :: t) = (ps, []) := by
  constructor
  · unfold handleNextionMessage
    simp [deliver, hcur, List.getD]
  · intro t ht
    unfold handleNextionMessage
    simp only [List.length_cons]
    have : (0x71 : Nat) ≠ 0x01 := by decide
    simp [Nat.lt_irrefl]
    omega

theorem numeric_decode_little_endian_witness :
    handleNextionMessage { pages := [freshPage 1], currentPage := some 0 }
        [0x71, 0x2A, 0x00, 0x00, 0x00] =
      ({ pages := [freshPage 1], currentPage := some 0 },
       [Event.handleNumeric 1 42]) ∧
    handleNextionMessage { pages := [freshPage 1], currentPage := some 0 }
        [0x71, 0x2A] =
      ({ pages := [freshPage 1], currentPage := some 0 }, []) := by
  have h := numeric_decode_little_endian { pages := [freshPage 1], currentPage := some 0 }
    1 0x2A 0x00 0x00 0x00 [] (by decide)
  exact ⟨h.1, h.2 [0x2A] (by decide)⟩

/-- A concrete two-page lifecycle state (ids 1 and 2, page 1 current),
used to instantiate the lifecycle theorems. -/
def psTwo : PageState := { pages := [freshPage 1, freshPage 2], currentPage := some 0 }

/-- C1: switching to a registered page id different from the current page's
id performs, in this order: the outgoing page's `onLeavePage` hook, the
clearing of its active flag, the setting of the new page's active flag, the
new page's `onEnterPage` hook, and — only if the new page was never
initialized — its one-time `begin()` followed by the marking as
initialized.  One-time initialization therefore follows the first
enter-hook call.  The call succeeds, the old page ends inactive and the new
page ends active, initialized, and current. -/
theorem switch_transition_order (ps : PageState) (pid oldIdx newIdx : Nat)
    (oldP : Page) (hcur : ps.currentPage = some oldIdx)
    (hold : ps.pages[oldIdx]? = some oldP)
    (hfind : findPageIdx ps.pages pid = some newIdx)
    (hne : oldP.pageId ≠ pid) :
    (switchToPageById ps pid).1 = true ∧
    (switchToPageById ps pid).2.2 =
      [Event.onLeavePage oldP.pageId, Event.activeCleared oldP.pageId,
       Event.activeSet pid, Event.onEnterPage pid] ++
      (if (getPageD ps.pages newIdx).inited then []
       else [Event.beginPage pid, Event.markInited pid]) ∧
    (getPageD (switchToPageById ps pid).2.1.pages oldIdx).isActive = false ∧
    (getPageD (switchToPageById ps pid).2.1.pages newIdx).isActive = true ∧
    (getPageD (switchToPageById ps pid).2.1.pages newIdx).inited = true ∧
    (switchToPageById ps pid).2.1.currentPage = some newIdx := by
  obtain ⟨newP, hnew, hnewid⟩ := findPageIdx_get ps.pages pid newIdx hfind
  have hltNew : newIdx < ps.pages.length := (List.getElem?_eq_some.mp hnew).1
  have hltOld : oldIdx < ps.pages.length := (List.getElem?_eq_some.mp hold).1
  have hidx : oldIdx ≠ newIdx := by
    intro heq
    rw [heq, hnew] at hold
    cases hold
    exact hne hnewid
  have holdD : getPageD ps.pages oldIdx = oldP := by
    unfold getPageD; rw [hold]; rfl
  have hnewD : getPageD ps.pages newIdx = newP := by
    unfold getPageD; rw [hnew]; rfl
  have h2new :
      getPageD (modifyPage (modifyPage ps.pages oldIdx fun p => { p with isActive := false })
          newIdx fun p => { p with isActive := true }) newIdx =
        { newP with isActive := true } := by
    rw [getPageD_modify_self _ _ _ (by rw [modifyPage_length]; exact hltNew),
        getPageD_modify_other _ _ (Ne.symm hidx), hnewD]
  have h2old :
      getPageD (modifyPage (modifyPage ps.pages oldIdx fun p => { p with isActive := false })
          newIdx fun p => { p with isActive := true }) oldIdx =
        { oldP with isActive := false } := by
    rw [getPageD_modify_other _ _ hidx, getPageD_modify_self _ _ _ hltOld, holdD]
  have hltNew2 : newIdx <
      (modifyPage (modifyPage ps.pages oldIdx fun p => { p with isActive := false })
        newIdx fun p => { p with isActive := true }).length := by
    rw [modifyPage_length, modifyPage_length]; exact hltNew
  by_cases hinit : newP.inited = true
  · have hsw : switchToPageById ps pid =
        (true,
         { pages := modifyPage (modifyPage ps.pages oldIdx fun p => { p with isActive := false })
             newIdx fun p => { p with isActive := true },
           currentPage := some newIdx },
         [Event.onLeavePage oldP.pageId, Event.activeCleared oldP.pageId,
          Event.activeSet pid, Event.onEnterPage pid]) := by
      unfold switchToPageById
      rw [hfind]
      try dsimp only
      rw [hcur]
      try dsimp only
      rw [if_neg (by simp [hidx])]
      try dsimp only
      rw [h2new]
      simp [holdD, hinit]
    refine ⟨by rw [hsw], ?_, ?_, ?_, ?_, by rw [hsw]⟩
    · rw [hsw, hnewD]; simp [hinit]
    · rw [hsw]; dsimp only; rw [h2old]
    · rw [hsw]; dsimp only; rw [h2new]
    · rw [hsw]; dsimp only; rw [h2new]; exact hinit
  · have hsw : switchToPageById ps pid =
        (true,
         { pages := modifyPage
             (modifyPage (modifyPage ps.pages oldIdx fun p => { p with isActive := false })
               newIdx fun p => { p with isActive := true })
             newIdx fun p => { p with inited := true },
           currentPage := some newIdx },
         [Event.onLeavePage oldP.pageId, Event.activeCleared oldP.pageId,
          Event.activeSet pid, Event.onEnterPage pid,
          Event.beginPage pid, Event.markInited pid]) := by
      unfold switchToPageById
      rw [hfind]
      try dsimp only
      rw [hcur]
      try dsimp only
      rw [if_neg (by simp [hidx])]
      try dsimp only
      rw [h2new]
      simp [holdD, hinit]
    refine ⟨by rw [hsw], ?_, ?_, ?_, ?_, by rw [hsw]⟩
    · rw [hsw, hnewD]; simp [hinit]
    · rw [hsw]; dsimp only; rw [getPageD_modify_other _ _ hidx, h2old]
    · rw [hsw]; dsimp only; rw [getPageD_modify_self _ _ _ hltNew2, h2new]
    · rw [hsw]; dsimp only; rw [getPageD_modify_self _ _ _ hltNew2]

theorem switch_transition_order_witness :
    (switchToPageById psTwo 2).1 = true ∧
    (switchToPageById psTwo 2).2.2 =
      [Event.onLeavePage 1, Event.activeCleared 1,
       Event.activeSet 2, Event.onEnterPage 2] ++
      (if (getPageD psTwo.pages 1).inited then []
       else [Event.beginPage 2, Event.markInited 2]) ∧
    (getPageD (switchToPageById psTwo 2).2.1.pages 0).isActive = false ∧
    (getPageD (switchToPageById psTwo 2).2.1.pages 1).isActive = true ∧
    (getPageD (switchToPageById psTwo 2).2.1.pages 1).inited = true ∧
    (switchToPageById psTwo 2).2.1.currentPage = some 1 :=
  switch_transition_order psTwo 2 0 1 (freshPage 1) rfl rfl (by decide) (by decide)

/-- C2: a dispatched touch frame (`0x65`, length ≥ 4) whose page id differs
from the current page's id first performs exactly one `switchToPageById`
with that id, and the touch is delivered to `handleTouch` only if the
current page's id then equals the reported id; when the reported id is not
in the registry the state is unchanged and the touch is dropped — it is
never delivered to the stale page. -/
theorem touch_mismatch_resyncs_then_delivers (ps : PageState)
    (pid cid ev : Nat) (rest : List Nat)
    (hmis : currentPageId ps ≠ some pid) :
    handleNextionMessage ps (0x65 :: pid :: cid :: ev :: rest) =
      ((switchToPageById ps pid).2.1,
       (switchToPageById ps pid).2.2 ++
         (if currentPageId (switchToPageById ps pid).2.1 = some pid
          then [Event.handleTouch pid cid ev] else [])) ∧
    ((∀ p ∈ ps.pages, p.pageId ≠ pid) →
      handleNextionMessage ps (0x65 :: pid :: cid :: ev :: rest) = (ps, [])) := by
  constructor
  · unfold handleNextionMessage
    simp [hmis, List.getD]
  · intro hnone
    unfold handleNextionMessage
    simp [hmis, List.getD, switchToPageById_not_found ps pid hnone]

theorem touch_mismatch_resyncs_then_delivers_witness :
    handleNextionMessage psTwo [0x65, 2, 7, 1] =
      ((switchToPageById psTwo 2).2.1,
       (switchToPageById psTwo 2).2.2 ++
         (if currentPageId (switchToPageById psTwo 2).2.1 = some 2
          then [Event.handleTouch 2 7 1] else [])) ∧
    ((∀ p ∈ psTwo.pages, p.pageId ≠ 2) →
      handleNextionMessage psTwo [0x65, 2, 7, 1] = (psTwo, [])) :=
  touch_mismatch_resyncs_then_delivers psTwo 2 7 1 [] (by decide)

/-! ## Framer step lemmas -/

theorem take_length_append {α : Type} (l t : List α) : (l ++ t).take l.length = l := by
  induction l with
  | nil => rfl
  | cons a l ih => simp [ih]

theorem readLoop_nil (s : ControllerState) (now : Nat) :
    readLoop s [] now = ⟨s, [], [], []⟩ := rfl

/-- A boundary byte arriving while the framer is idle is skipped: only the
timestamp and terminator counter are touched, assembly does not start. -/
theorem readLoop_idle_skip (s : ControllerState) (rest : List Nat) (now : Nat)
    (h : s.readingMessage = false) :
    readLoop s (0xFF :: rest) now =
      readLoop { s with lastCharTime := now, terminatorCount := 0 } rest now := by
  simp only [readLoop]
  simp [h]

/-- A non-boundary byte arriving while idle starts assembly with that byte
as the first buffer content. -/
theorem readLoop_start (s : ControllerState) (b : Nat) (rest : List Nat) (now : Nat)
    (h : s.readingMessage = false) (hb : b ≠ 0xFF) :
    readLoop s (b :: rest) now =
      readLoop
        { s with
            lastCharTime := now, terminatorCount := 0,
            readingMessage := true, serialBuffer := [b] } rest now := by
  simp only [readLoop]
  simp [h, hb, SerialBufferSize]

/-- A non-boundary byte arriving mid-assembly is appended to the buffer and
resets the consecutive-terminator counter. -/
theorem readLoop_push (s : ControllerState) (b : Nat) (rest : List Nat) (now : Nat)
    (h : s.readingMessage = true) (hb : b ≠ 0xFF)
    (hlen : s.serialBuffer.length < SerialBufferSize) :
    readLoop s (b :: rest) now =
      readLoop
        { s with
            lastCharTime := now, terminatorCount := 0,
            serialBuffer := s.serialBuffer ++ [b] } rest now := by
  simp only [readLoop]
  simp [h, hb, hlen]

/-- A byte arriving when the buffer is already full (overflow): the frame is
discarded, the framer resets to idle, and the drain loop stops (`break`),
leaving the remaining bytes in the transport. -/
theorem readLoop_overflow (s : ControllerState) (b : Nat) (rest : List Nat) (now : Nat)
    (h : s.readingMessage = true)
    (hlen : ¬ s.serialBuffer.length < SerialBufferSize) :
    readLoop s (b :: rest) now =
      ⟨{ s with
            lastCharTime := now, readingMessage := false,
            serialBuffer := [], terminatorCount := 0 }, [], [], rest⟩ := by
  simp only [readLoop]
  simp [h, hlen]

/-- A boundary byte mid-assembly below the completion threshold: appended as
payload content, terminator counter incremented. -/
theorem readLoop_ff_mid (s : ControllerState) (rest : List Nat) (now : Nat)
    (h : s.readingMessage = true)
    (hlen : s.serialBuffer.length < SerialBufferSize)
    (hterm : s.terminatorCount + 1 < 3) :
    readLoop s (0xFF :: rest) now =
      readLoop
        { s with
            lastCharTime := now, terminatorCount := s.terminatorCount + 1,
            serialBuffer := s.serialBuffer ++ [0xFF] } rest now := by
  have h3 : ¬ 3 ≤ s.terminatorCount + 1 := by omega
  simp only [readLoop]
  simp [h, hlen, h3]

/-- The continuation after a completed frame: the frame is dispatched, the
framer resets to idle, and draining continues. -/
def afterFrame (s : ControllerState) (pl rest : List Nat) (now : Nat) : ReadResult :=
  let d := handleNextionMessage s.ps pl
  let r := readLoop
    { s with
        lastCharTime := now, ps := d.1, serialBuffer := [],
        terminatorCount := 0, readingMessage := false } rest now
  ⟨r.state, d.2 ++ r.events, pl :: r.frames, r.leftover⟩

theorem afterFrame_nil (s : ControllerState) (pl : List Nat) (now : Nat) :
    afterFrame s pl [] now =
      ⟨{ s with
            lastCharTime := now, ps := (handleNextionMessage s.ps pl).1,
            serialBuffer := [], terminatorCount := 0, readingMessage := false },
        (handleNextionMessage s.ps pl).2, [pl], []⟩ := by
  unfold afterFrame
  simp [readLoop]

/-- The third consecutive boundary byte completes the frame: the payload
(the buffer minus the three terminators) is dispatched and the framer
resets to idle before draining continues. -/
theorem readLoop_ff_complete (s : ControllerState) (rest : List Nat) (now : Nat)
    (h : s.readingMessage = true)
    (hlen : s.serialBuffer.length < SerialBufferSize)
    (hterm : 3 ≤ s.terminatorCount + 1) :
    readLoop s (0xFF :: rest) now =
      (let msg := (s.serialBuffer ++ [0xFF]).take ((s.serialBuffer ++ [0xFF]).length - 3)
       let d := handleNextionMessage s.ps msg
       let r := readLoop
         { s with
             lastCharTime := now, ps := d.1, serialBuffer := [],
             terminatorCount := 0, readingMessage := false } rest now
       ⟨r.state, d.2 ++ r.events, msg :: r.frames, r.leftover⟩) := by
  simp only [readLoop]
  simp [h, hlen, hterm]

/-- Three boundary bytes arriving when the terminator counter is zero
complete the frame with exactly the assembled buffer as payload. -/
theorem readLoop_terminate (s : ControllerState) (rest : List Nat) (now : Nat)
    (h : s.readingMessage = true) (hterm : s.terminatorCount = 0)
    (hlen : s.serialBuffer.length + 3 ≤ SerialBufferSize) :
    readLoop s (0xFF :: 0xFF :: 0xFF :: rest) now =
      afterFrame s s.serialBuffer rest now := by
  have hl1 : s.serialBuffer.length < SerialBufferSize := by
    simp [SerialBufferSize] at hlen ⊢; omega
  rw [readLoop_ff_mid s _ now h hl1 (by omega)]
  have hl2 : (({ s with
      lastCharTime := now, terminatorCount := s.terminatorCount + 1,
      serialBuffer := s.serialBuffer ++ [0xFF] } : ControllerState)).serialBuffer.length <
      SerialBufferSize := by
    simp [SerialBufferSize] at hlen ⊢; omega
  rw [readLoop_ff_mid _ _ now (by simpa using h) hl2 (by simp [hterm])]
  simp only [hterm]
  have hl3 : (s.serialBuffer ++ [(0xFF : Nat)] ++ [0xFF]).length < SerialBufferSize := by
    simp [SerialBufferSize] at hlen ⊢; omega
  rw [readLoop_ff_complete _ _ now (by simpa using h) (by simpa using hl3) (by simp)]
  have hmsg : (s.serialBuffer ++ [(0xFF : Nat)] ++ [0xFF] ++ [0xFF]).take
      ((s.serialBuffer ++ [(0xFF : Nat)] ++ [0xFF] ++ [0xFF]).length - 3) = s.serialBuffer := by
    have he : s.serialBuffer ++ [(0xFF : Nat)] ++ [0xFF] ++ [0xFF] =
        s.serialBuffer ++ [0xFF, 0xFF, 0xFF] := by simp
    rw [he]
    have hl : (s.serialBuffer ++ [(0xFF : Nat), 0xFF, 0xFF]).length - 3 =
        s.serialBuffer.length := by simp
    rw [hl, take_length_append]
  simp only
  rw [hmsg]
  rfl

/-- Feeding a run of non-boundary payload bytes mid-assembly appends them
all to the buffer, emitting nothing. -/
theorem readLoop_assemble : ∀ (pl : List Nat) (s : ControllerState) (rest : List Nat) (now : Nat),
    s.readingMessage = true → s.terminatorCount = 0 → s.lastCharTime = now →
    (∀ x ∈ pl, x ≠ 0xFF) → s.serialBuffer.length + pl.length ≤ SerialBufferSize →
    readLoop s (pl ++ rest) now =
      readLoop { s with serialBuffer := s.serialBuffer ++ pl } rest now := by
  intro pl
  induction pl with
  | nil =>
    intro s rest now _ _ _ _ _
    have hs : ({ s with serialBuffer := s.serialBuffer ++ [] } : ControllerState) = s := by
      rw [List.append_nil]
    rw [List.nil_append, hs]
  | cons a pl ih =>
    intro s rest now h hterm hlast hff hlen
    have ha : a ≠ 0xFF := hff a (List.mem_cons_self a pl)
    have hlen1 : s.serialBuffer.length < SerialBufferSize := by
      simp at hlen; omega
    rw [List.cons_append, readLoop_push s a (pl ++ rest) now h ha hlen1]
    rw [ih _ rest now (by simpa using h) rfl rfl
        (fun x hx => hff x (List.mem_cons_of_mem a hx))
        (by simp; simp at hlen; omega)]
    rw [← hlast, ← hterm]
    simp [List.append_assoc]

/-- A well-formed frame (non-empty payload free of boundary bytes, within
capacity, followed by the three terminators) fed to an idle framer is
assembled, dispatched with exactly that payload, and leaves the framer
idle again. -/
theorem readLoop_frame (s : ControllerState) (pl rest : List Nat) (now : Nat)
    (hidle : s.readingMessage = false) (hne : pl ≠ [])
    (hff : ∀ x ∈ pl, x ≠ 0xFF) (hlen : pl.length + 3 ≤ SerialBufferSize) :
    readLoop s (pl ++ 0xFF :: 0xFF :: 0xFF :: rest) now =
      afterFrame s pl rest now := by
  obtain ⟨a, pl', rfl⟩ := List.exists_cons_of_ne_nil hne
  have ha : a ≠ 0xFF := hff a (List.mem_cons_self a pl')
  rw [List.cons_append, readLoop_start s a _ now hidle ha]
  rw [readLoop_assemble pl' _ _ now rfl rfl rfl
      (fun x hx => hff x (List.mem_cons_of_mem a hx))
      (by simp; simp at hlen; omega)]
  rw [readLoop_terminate _ rest now rfl rfl (by simp; simp at hlen; omega)]
  simp [afterFrame]

/-! ## Claim theorems: framer (C3, C4, C5) -/

/-- C4: boundary bytes arriving while idle are discarded without starting
assembly; assembly starts on the first non-boundary byte; a payload
followed by three boundary bytes is framed with the terminators excluded
from the dispatched payload; and the byte sequence
`FF FF 65 01 02 01 FF FF FF` fed to a freshly constructed controller whose
page 1 is current produces exactly one dispatched frame `[65 01 02 01]`
and exactly one touch delivery: page 1, component 2, press. -/
theorem framer_boundary_discipline :
    (∀ (s : ControllerState) (rest : List Nat) (now : Nat),
       s.readingMessage = false →
       readLoop s (0xFF :: rest) now =
         readLoop { s with lastCharTime := now, terminatorCount := 0 } rest now ∧
       ({ s with lastCharTime := now, terminatorCount := 0 } : ControllerState).readingMessage
         = false) ∧
    (∀ (s : ControllerState) (b : Nat) (rest : List Nat) (now : Nat),
       s.readingMessage = false → b ≠ 0xFF →
       readLoop s (b :: rest) now =
         readLoop
           { s with
               lastCharTime := now, terminatorCount := 0,
               readingMessage := true, serialBuffer := [b] } rest now) ∧
    (∀ (s : ControllerState) (pl : List Nat) (now : Nat),
       s.readingMessage = false → pl ≠ [] → (∀ x ∈ pl, x ≠ 0xFF) →
       pl.length + 3 ≤ SerialBufferSize →
       (readLoop s (pl ++ [0xFF, 0xFF, 0xFF]) now).frames = [pl] ∧
       (readLoop s (pl ++ [0xFF, 0xFF, 0xFF]) now).events =
         (handleNextionMessage s.ps pl).2) ∧
    ((readSerial (mkController [1]) [0xFF, 0xFF, 0x65, 1, 2, 1, 0xFF, 0xFF, 0xFF] 0).events =
       [Event.handleTouch 1 2 1] ∧
     (readSerial (mkController [1]) [0xFF, 0xFF, 0x65, 1, 2, 1, 0xFF, 0xFF, 0xFF] 0).frames =
       [[0x65, 1, 2, 1]]) := by
  refine ⟨?_, ?_, ?_, ?_⟩
  · intro s rest now h
    exact ⟨readLoop_idle_skip s rest now h, h⟩
  · intro s b rest now h hb
    exact readLoop_start s b rest now h hb
  · intro s pl now h hne hff hlen
    rw [readLoop_frame s pl [] now h hne hff hlen, afterFrame_nil]
    exact ⟨rfl, rfl⟩
  · exact ⟨by decide, by decide⟩

theorem framer_boundary_discipline_witness :
    (readLoop (mkController [1]) [0xFF] 5 =
       readLoop { mkController [1] with lastCharTime := 5, terminatorCount := 0 } [] 5) ∧
    (readLoop (mkController [1]) [0x65] 5 =
       readLoop
         { mkController [1] with
             lastCharTime := 5, terminatorCount := 0,
             readingMessage := true, serialBuffer := [0x65] } [] 5) ∧
    (readLoop (mkController [1]) ([0x66, 1] ++ [0xFF, 0xFF, 0xFF]) 5).frames = [[0x66, 1]] := by
  obtain ⟨h1, h2, h3, -⟩ := framer_boundary_discipline
  exact ⟨(h1 (mkController [1]) [] 5 rfl).1,
         h2 (mkController [1]) 0x65 [] 5 rfl (by decide),
         (h3 (mkController [1]) [0x66, 1] 5 rfl (by decide) (by decide) (by decide)).1⟩

/-- C3: a byte arriving while the assembly buffer is full is a framing
overflow: the buffer is discarded, the framer resets to idle, no frame is
emitted for that attempt, and the drain loop stops, leaving the rest of
the stream in the transport; the next poll then frames a following
legitimate frame exactly, with no byte of the discarded buffer carried
over. -/
theorem overflow_discards_then_recovers (s : ControllerState) (b now now2 : Nat)
    (pl : List Nat) (hread : s.readingMessage = true)
    (hfull : ¬ s.serialBuffer.length < SerialBufferSize)
    (hne : pl ≠ []) (hff : ∀ x ∈ pl, x ≠ 0xFF)
    (hlen : pl.length + 3 ≤ SerialBufferSize) :
    readLoop s (b :: (pl ++ [0xFF, 0xFF, 0xFF])) now =
      ⟨{ s with
            lastCharTime := now, readingMessage := false,
            serialBuffer := [], terminatorCount := 0 }, [], [], pl ++ [0xFF, 0xFF, 0xFF]⟩ ∧
    readSerial
        { s with
            lastCharTime := now, readingMessage := false,
            serialBuffer := [], terminatorCount := 0 } (pl ++ [0xFF, 0xFF, 0xFF]) now2 =
      ⟨{ s with
            lastCharTime := now2, ps := (handleNextionMessage s.ps pl).1,
            serialBuffer := [], terminatorCount := 0, readingMessage := false },
        (handleNextionMessage s.ps pl).2, [pl], []⟩ := by
  constructor
  · exact readLoop_overflow s b _ now hread hfull
  · simp only [readSerial]
    rw [readLoop_frame _ pl [] now2 rfl hne hff hlen, afterFrame_nil]
    simp

set_option maxRecDepth 4000 in
theorem overflow_discards_then_recovers_witness :
    readLoop
        { mkController [1] with
            readingMessage := true, serialBuffer := List.replicate 256 7 } (9 :: ([0x66, 1] ++ [0xFF, 0xFF, 0xFF])) 3 =
      ⟨{ mkController [1] with
            lastCharTime := 3, readingMessage := false,
            serialBuffer := [], terminatorCount := 0 }, [], [], [0x66, 1] ++ [0xFF, 0xFF, 0xFF]⟩ ∧
    readSerial
        { mkController [1] with
            lastCharTime := 3, readingMessage := false,
            serialBuffer := [], terminatorCount := 0 } ([0x66, 1] ++ [0xFF, 0xFF, 0xFF]) 4 =
      ⟨{ mkController [1] with
            lastCharTime := 4,
            ps := (handleNextionMessage (mkController [1]).ps [0x66, 1]).1,
            serialBuffer := [], terminatorCount := 0, readingMessage := false },
        (handleNextionMessage (mkController [1]).ps [0x66, 1]).2, [[0x66, 1]], []⟩ :=
  overflow_discards_then_recovers
    { mkController [1] with readingMessage := true, serialBuffer := List.replicate 256 7 }
    9 3 4 [0x66, 1] rfl (by simp [SerialBufferSize]) (by decide) (by decide) (by decide)

/-- C5: when a frame is assembling and no byte has arrived for longer than
the timeout, a poll with no available bytes abandons the partial frame —
buffer position, terminator count and reading flag all reset — and issues
exactly one `sendme` resynchronization probe; a legitimate frame arriving
afterwards is framed exactly, so the abandoned bytes are never combined
with it. -/
theorem stalled_frame_timeout_resync (s : ControllerState) (now : Nat)
    (hread : s.readingMessage = true)
    (ht : SerialTimeout < elapsed now s.lastCharTime) :
    readSerial s [] now =
      ⟨{ s with readingMessage := false, terminatorCount := 0, serialBuffer := [] },
        [Event.sendme], [], []⟩ ∧
    ∀ (pl : List Nat) (now2 : Nat), pl ≠ [] → (∀ x ∈ pl, x ≠ 0xFF) →
      pl.length + 3 ≤ SerialBufferSize →
      (readSerial
          { s with
              readingMessage := false, terminatorCount := 0,
              serialBuffer := [] } (pl ++ [0xFF, 0xFF, 0xFF]) now2).frames = [pl] := by
  constructor
  · simp only [readSerial, readLoop]
    simp [hread, ht]
  · intro pl now2 hne hff hlen
    simp only [readSerial]
    rw [readLoop_frame _ pl [] now2 rfl hne hff hlen, afterFrame_nil]
    simp

theorem stalled_frame_timeout_resync_witness :
    readSerial
        { mkController [1] with
            readingMessage := true, serialBuffer := [0x65, 1], lastCharTime := 10 } [] 2000 =
      ⟨{ { mkController [1] with
            readingMessage := true, serialBuffer := [0x65, 1], lastCharTime := 10 } with
            readingMessage := false, terminatorCount := 0, serialBuffer := [] },
        [Event.sendme], [], []⟩ ∧
    ∀ (pl : List Nat) (now2 : Nat), pl ≠ [] → (∀ x ∈ pl, x ≠ 0xFF) →
      pl.length + 3 ≤ SerialBufferSize →
      (readSerial
          { { mkController [1] with
                readingMessage := true, serialBuffer := [0x65, 1], lastCharTime := 10 } with
              readingMessage := false, terminatorCount := 0,
              serialBuffer := [] } (pl ++ [0xFF, 0xFF, 0xFF]) now2).frames = [pl] :=
  stalled_frame_timeout_resync
    { mkController [1] with
        readingMessage := true, serialBuffer := [0x65, 1], lastCharTime := 10 }
    2000 rfl (by decide)

/-! ## Claim theorems: outbound command gating (C8) -/

/-- C8 counterexample: `setPage` is a send operation that writes to the
transport even while its owning page is inactive, so "every send operation
of an inactive page is a silent no-op" is false. -/
theorem setPage_writes_while_inactive :
    (freshPage 9).isActive = false ∧ BaseDisplayPage.setPage (freshPage 9) 3 ≠ [] := by
  constructor
  · rfl
  · decide

/-- C8 (amended): every outbound helper except `setPage` (`sendCommand`,
`setComponentProperty`, `sendValue`, `sendText`) writes nothing while the
owning page is inactive; `setPage` deliberately bypasses the active-state
check and writes the same bytes whether or not the page is active. -/
theorem send_helpers_gated_except_setPage (p : Page) (h : p.isActive = false)
    (cmd component property text : String) (v : Int) (pid : Nat) :
    BaseDisplayPage.sendCommand p cmd = [] ∧
    BaseDisplayPage.setComponentProperty p component property v = [] ∧
    BaseDisplayPage.sendValue p component v = [] ∧
    BaseDisplayPage.sendText p component text = [] ∧
    BaseDisplayPage.setPage p pid = BaseDisplayPage.setPage { p with isActive := true } pid := by
  refine ⟨?_, ?_, ?_, ?_, rfl⟩ <;>
    simp [BaseDisplayPage.sendCommand, BaseDisplayPage.setComponentProperty,
      BaseDisplayPage.sendValue, BaseDisplayPage.sendText, h]

theorem send_helpers_gated_except_setPage_witness :
    BaseDisplayPage.sendCommand (freshPage 2) "t0.txt=\"Hi\"" = [] ∧
    BaseDisplayPage.setComponentProperty (freshPage 2) "b0" "pic" 4 = [] ∧
    BaseDisplayPage.sendValue (freshPage 2) "n0" 42 = [] ∧
    BaseDisplayPage.sendText (freshPage 2) "t0" "Hi" = [] ∧
    BaseDisplayPage.setPage (freshPage 2) 3 =
      BaseDisplayPage.setPage { freshPage 2 with isActive := true } 3 :=
  send_helpers_gated_except_setPage (freshPage 2) rfl "t0.txt=\"Hi\"" "b0" "pic" "Hi" 4 3

/-! ## The single-active-page invariant (C9) -/

/-- The strong invariant tying the flags to the pointer: a registry entry's
active flag is set exactly when `currentPage` points at it. -/
def ActiveInv (ps : PageState) : Prop :=
  ∀ (j : Nat) (p : Page),
    ps.pages[j]? = some p → (p.isActive = true ↔ ps.currentPage = some j)

/-- Number of registry entries whose active flag is set. -/
def activeCount (pages : List Page) : Nat :=
  (pages.filter (fun p => p.isActive)).length

/-- Shift an optional index across a cons cell. -/
def curShift : Option Nat → Option Nat
  | some (n + 1) => some n
  | _ => none

theorem curShift_eq (cur : Option Nat) (j : Nat) :
    cur = some (j + 1) ↔ curShift cur = some j := by
  cases cur with
  | none => simp [curShift]
  | some k =>
    cases k with
    | zero => simp [curShift]
    | succ m => simp [curShift]

theorem activeCount_zero : ∀ (pages : List Page),
    (∀ (j : Nat) (p : Page), pages[j]? = some p → p.isActive = false) →
    activeCount pages = 0 := by
  intro pages
  induction pages with
  | nil => intro _; rfl
  | cons p ps ih =>
    intro h
    have h0 : p.isActive = false := h 0 p (by simp)
    have ht : ∀ (j : Nat) (q : Page), ps[j]? = some q → q.isActive = false :=
      fun j q hq => h (j + 1) q (by simpa using hq)
    simpa [activeCount, List.filter_cons, h0] using ih ht

theorem activeCount_le_one : ∀ (pages : List Page) (cur : Option Nat),
    (∀ (j : Nat) (p : Page), pages[j]? = some p → (p.isActive = true ↔ cur = some j)) →
    activeCount pages ≤ 1 := by
  intro pages
  induction pages with
  | nil => intro cur _; simp [activeCount]
  | cons p ps ih =>
    intro cur h
    have h0 := h 0 p (by simp)
    by_cases hp : p.isActive = true
    · have hcur : cur = some 0 := h0.mp hp
      have hz : ∀ (j : Nat) (q : Page), ps[j]? = some q → q.isActive = false := by
        intro j q hq
        cases hqa : q.isActive with
        | false => rfl
        | true =>
          exfalso
          have hq2 := (h (j + 1) q (by simpa using hq)).mp hqa
          rw [hcur] at hq2
          simp at hq2
      have hc0 := activeCount_zero ps hz
      simp only [activeCount, List.filter_cons, hp, if_true, List.length_cons]
      simp only [activeCount] at hc0
      omega
    · have hp' : p.isActive = false := by simpa using hp
      have ht : ∀ (j : Nat) (q : Page),
          ps[j]? = some q → (q.isActive = true ↔ curShift cur = some j) := by
        intro j q hq
        rw [← curShift_eq cur j]
        exact h (j + 1) q (by simpa using hq)
      simpa [activeCount, List.filter_cons, hp'] using ih (curShift cur) ht

/-- Pointing the current page at an index whose entry is the only active
one establishes the invariant. -/
theorem activeInv_mk (pages2 : List Page) (newIdx : Nat)
    (hnew : ∀ p : Page, pages2[newIdx]? = some p → p.isActive = true)
    (hother : ∀ (j : Nat) (p : Page), pages2[j]? = some p → j ≠ newIdx → p.isActive = false) :
    ActiveInv ⟨pages2, some newIdx⟩ := by
  intro j p hp
  by_cases hj : j = newIdx
  · subst hj
    simp [hnew p hp]
  · have hfalse := hother j p hp hj
    rw [hfalse]
    simp only [Bool.false_eq_true, false_iff, Option.some.injEq]
    exact fun hh => hj hh.symm

/-- Modifications that do not touch the active flag or the pointer
preserve the invariant. -/
theorem activeInv_modify_keep (ps : PageState) (i : Nat) (f : Page → Page)
    (hf : ∀ p, (f p).isActive = p.isActive) (h : ActiveInv ps) :
    ActiveInv ⟨modifyPage ps.pages i f, ps.currentPage⟩ := by
  intro j p hp
  rw [getElem?_modifyPage] at hp
  by_cases hj : j = i
  · rw [if_pos hj] at hp
    cases ho : ps.pages[j]? with
    | none => rw [ho] at hp; cases hp
    | some q =>
      rw [ho] at hp
      simp at hp
      rw [← hp, hf]
      exact h j q ho
  · rw [if_neg hj] at hp
    exact h j p hp

theorem activeInv_switch (ps : PageState) (pid : Nat) (h : ActiveInv ps) :
    ActiveInv (switchToPageById ps pid).2.1 := by
  rcases hf : findPageIdx ps.pages pid with - | newIdx
  · unfold switchToPageById
    rw [hf]
    exact h
  · have hltNew : newIdx < ps.pages.length := findPageIdx_lt ps.pages pid newIdx hf
    unfold switchToPageById
    rw [hf]
    try dsimp only
    by_cases hc : ps.currentPage = some newIdx
    · rw [if_pos hc]; exact h
    · rw [if_neg hc]
      cases hcur : ps.currentPage with
      | none =>
        dsimp only
        have hbase : ∀ (j : Nat) (p : Page),
            ps.pages[j]? = some p → j ≠ newIdx → p.isActive = false := by
          intro j p hp _
          have hiff := h j p hp
          rw [hcur] at hiff
          cases hpa : p.isActive with
          | false => rfl
          | true => exact absurd (hiff.mp hpa) (by simp)
        have hact : ∀ q : Page, (modifyPage ps.pages newIdx
            (fun p => { p with isActive := true }))[newIdx]? = some q → q.isActive = true := by
          intro q hq
          rw [getElem?_modifyPage, if_pos rfl] at hq
          cases ho : ps.pages[newIdx]? with
          | none => rw [ho] at hq; cases hq
          | some r0 => rw [ho] at hq; simp at hq; rw [← hq]
        have hoth : ∀ (j : Nat) (q : Page), (modifyPage ps.pages newIdx
            (fun p => { p with isActive := true }))[j]? = some q → j ≠ newIdx →
            q.isActive = false := by
          intro j q hq hj
          rw [getElem?_modifyPage, if_neg hj] at hq
          exact hbase j q hq hj
        split
        · exact activeInv_mk _ newIdx hact hoth
        · have hkeep := activeInv_modify_keep
            ⟨modifyPage ps.pages newIdx (fun p => { p with isActive := true }), some newIdx⟩
            newIdx (fun p => { p with inited := true }) (fun p => rfl)
            (activeInv_mk _ newIdx hact hoth)
          exact hkeep
      | some oldIdx =>
        dsimp only
        have hbase : ∀ (j : Nat) (p : Page),
            (modifyPage ps.pages oldIdx (fun p => { p with isActive := false }))[j]? = some p →
            j ≠ newIdx → p.isActive = false := by
          intro j p hp _
          rw [getElem?_modifyPage] at hp
          by_cases hj : j = oldIdx
          · rw [if_pos hj] at hp
            cases ho : ps.pages[j]? with
            | none => rw [ho] at hp; cases hp
            | some q => rw [ho] at hp; simp at hp; rw [← hp]
          · rw [if_neg hj] at hp
            have hiff := h j p hp
            rw [hcur] at hiff
            cases hpa : p.isActive with
            | false => rfl
            | true =>
              exfalso
              have h2 := hiff.mp hpa
              simp at h2
              exact hj h2.symm
        have hact : ∀ q : Page, (modifyPage
            (modifyPage ps.pages oldIdx (fun p => { p with isActive := false })) newIdx
            (fun p => { p with isActive := true }))[newIdx]? = some q → q.isActive = true := by
          intro q hq
          rw [getElem?_modifyPage, if_pos rfl] at hq
          cases ho : (modifyPage ps.pages oldIdx
              (fun p => { p with isActive := false }))[newIdx]? with
          | none => rw [ho] at hq; cases hq
          | some r0 => rw [ho] at hq; simp at hq; rw [← hq]
        have hoth : ∀ (j : Nat) (q : Page), (modifyPage
            (modifyPage ps.pages oldIdx (fun p => { p with isActive := false })) newIdx
            (fun p => { p with isActive := true }))[j]? = some q → j ≠ newIdx →
            q.isActive = false := by
          intro j q hq hj
          rw [getElem?_modifyPage, if_neg hj] at hq
          exact hbase j q hq hj
        split
        · exact activeInv_mk _ newIdx hact hoth
        · have hkeep := activeInv_modify_keep
            ⟨modifyPage (modifyPage ps.pages oldIdx (fun p => { p with isActive := false }))
               newIdx (fun p => { p with isActive := true }), some newIdx⟩
            newIdx (fun p => { p with inited := true }) (fun p => rfl)
            (activeInv_mk _ newIdx hact hoth)
          exact hkeep

theorem activeInv_handle (ps : PageState) (d : List Nat) (h : ActiveInv ps) :
    ActiveInv (handleNextionMessage ps d).1 := by
  unfold handleNextionMessage
  cases d with
  | nil => exact h
  | cons cmd rest =>
    dsimp only
    repeat' split
    all_goals first
      | exact h
      | exact activeInv_switch _ _ h

theorem activeInv_readLoop : ∀ (bytes : List Nat) (s : ControllerState) (now : Nat),
    ActiveInv s.ps → ActiveInv (readLoop s bytes now).state.ps := by
  intro bytes
  induction bytes with
  | nil => intro s now h; simpa [readLoop] using h
  | cons b rest ih =>
    intro s now h
    by_cases hr : s.readingMessage = true
    · by_cases hl : s.serialBuffer.length < SerialBufferSize
      · by_cases hb : b = 0xFF
        · subst hb
          by_cases ht : 3 ≤ s.terminatorCount + 1
          · rw [readLoop_ff_complete s rest now hr hl ht]
            dsimp only
            exact ih _ now (activeInv_handle _ _ h)
          · rw [readLoop_ff_mid s rest now hr hl (by omega)]
            exact ih _ now (by simpa using h)
        · rw [readLoop_push s b rest now hr hb hl]
          exact ih _ now (by simpa using h)
      · rw [readLoop_overflow s b rest now hr hl]
        simpa using h
    · have hr' : s.readingMessage = false := by simpa using hr
      by_cases hb : b = 0xFF
      · subst hb
        rw [readLoop_idle_skip s rest now hr']
        exact ih _ now (by simpa using h)
      · rw [readLoop_start s b rest now hr' hb]
        exact ih _ now (by simpa using h)

theorem activeInv_readSerial (s : ControllerState) (bytes : List Nat) (now : Nat)
    (h : ActiveInv s.ps) : ActiveInv (readSerial s bytes now).state.ps := by
  simp only [readSerial]
  split
  · dsimp only
    exact activeInv_readLoop bytes s now h
  · exact activeInv_readLoop bytes s now h

theorem activeInv_update (s : ControllerState) (bytes : List Nat) (now : Nat)
    (h : ActiveInv s.ps) : ActiveInv (update s bytes now).state.ps := by
  simp only [update]
  split
  · dsimp only
    exact activeInv_readSerial s bytes now h
  · exact activeInv_readSerial s bytes now h

theorem activeInv_begin (s : ControllerState) (h : ActiveInv s.ps) :
    ActiveInv (begin s).2.1.ps := by
  unfold begin
  cases hc : s.ps.currentPage with
  | none => exact h
  | some i =>
    dsimp only
    split
    · dsimp only
      exact activeInv_modify_keep s.ps i (fun p => { p with inited := true }) (fun p => rfl) h
    · exact h

/-- One controller operation, for the reachability relation: `begin`, a
poll (`update` with the bytes the transport yields), an internal page
switch, or the dispatch of one framed message. -/
inductive Op where
  | beginOp
  | updateOp (bytes : List Nat) (now : Nat)
  | switchOp (pageId : Nat)
  | messageOp (data : List Nat)

/-- Effect of one operation on the controller state. -/
def applyOp (s : ControllerState) : Op → ControllerState
  | Op.beginOp => (begin s).2.1
  | Op.updateOp bytes now => (update s bytes now).state
  | Op.switchOp pid => { s with ps := (switchToPageById s.ps pid).2.1 }
  | Op.messageOp d => { s with ps := (handleNextionMessage s.ps d).1 }

/-- States reachable from construction by any sequence of controller
operations. -/
inductive Reachable (ids : List Nat) : ControllerState → Prop where
  | init : Reachable ids (mkController ids)
  | step {s : ControllerState} (op : Op) : Reachable ids s → Reachable ids (applyOp s op)

theorem activeInv_mkController (ids : List Nat) : ActiveInv (mkController ids).ps := by
  cases ids with
  | nil =>
    intro j p hp
    simp [mkController, modifyPage] at hp
  | cons a l =>
    intro j p hp
    simp only [mkController, List.map_cons, modifyPage] at hp ⊢
    cases j with
    | zero =>
      simp only [List.getElem?_cons_zero, Option.some.injEq] at hp
      simp [← hp, freshPage]
    | succ m =>
      simp only [List.getElem?_cons_succ, List.getElem?_map] at hp
      cases ho : l[m]? with
      | none => rw [ho] at hp; cases hp
      | some x =>
        rw [ho] at hp
        simp at hp
        rw [← hp]
        simp [freshPage]

/-- C9: in every state reachable from construction by any sequence of
controller operations (`begin`, `update`, `switchToPageById`, message
dispatch), at most one registered page has its active flag set; and
construction with a non-empty registry pre-marks the first registry entry
active. -/
theorem at_most_one_active_page (ids : List Nat) (s : ControllerState)
    (h : Reachable ids s) :
    activeCount s.ps.pages ≤ 1 ∧
    (ids ≠ [] → (getPageD (mkController ids).ps.pages 0).isActive = true) := by
  constructor
  · have hinv : ActiveInv s.ps := by
      induction h with
      | init => exact activeInv_mkController ids
      | step op hprev ih =>
        cases op with
        | beginOp => exact activeInv_begin _ ih
        | updateOp bytes now => exact activeInv_update _ bytes now ih
        | switchOp pid => exact activeInv_switch _ pid ih
        | messageOp d => exact activeInv_handle _ d ih
    exact activeCount_le_one s.ps.pages s.ps.currentPage (fun j p hp => hinv j p hp)
  · intro hne
    cases ids with
    | nil => exact absurd rfl hne
    | cons a l => simp [mkController, modifyPage, freshPage, getPageD]

theorem at_most_one_active_page_witness :
    activeCount (mkController [3, 4]).ps.pages ≤ 1 ∧
    (([3, 4] : List Nat) ≠ [] →
      (getPageD (mkController [3, 4]).ps.pages 0).isActive = true) :=
  at_most_one_active_page [3, 4] (mkController [3, 4]) Reachable.init

end Nextion
